import Mathlib

/-!
Shallow embedding of the kwmjs call engine (src/webrtc.ts), group controller
(src/group.ts), and the KWM transport client (src/kwm.ts), together with
theorems checking the specification's claims against it.

Modelling conventions:
* TypeScript `string | undefined` fields whose code treats `''` and
  `undefined` the same (truthiness tests) are modelled as `String` with `""`
  for the absent value; fields where `undefined` is distinguished from other
  values (`rpcid`, `pc`, `profile`, `group` controller) use `Option`.
* The JavaScript `Map<string, PeerRecord>` is an association list in
  insertion order; `Map.get`/`set`/`delete`/`forEach` are `mapGet`, `mapSet`,
  `mapDelete` and folds over the list.
* Mutation of a `PeerRecord` object that lives in the peer map is modelled by
  writing the updated record back under the key it was retrieved from (the
  source always stores records under `record.id`).
* Side effects that leave the engine (websocket sends, event dispatch, peer
  connection calls, `setTimeout`-deferred work) are collected in an output
  list `WOut` in the order the source performs them.
* `getRandomString(12)` nonces are passed in as explicit `fresh` arguments.
* SimplePeer connections are identified by a counter `pcSeq`; only the
  aspects of a connection the engine reads (`_id`, `destroyed`) are kept.
-/

namespace Kwmjs

/-- WebRTC payload version constant (`WebRTCBaseManager.version`). -/
def webrtcVersion : Nat := 20180703

/-- `IRTMDataWebRTCChannelGroup`: group info carried in webrtc_channel data.
The `reset` flag is read by `GroupController.handleWebRTCMessage`. -/
structure GroupData where
  group : String
  members : List String
  reset : Bool := false
deriving Repr, DecidableEq

/-- `IRTMDataWebRTCChannelPipeline`. -/
structure PipelineData where
  pipeline : String
  mode : String
deriving Repr, DecidableEq

/-- Inbound `message.data` bag: the fields the engine reads from the
free-form `data` of a `webrtc` envelope. -/
structure MsgData where
  accept : Bool := false
  reason : String := ""
  state : String := ""
  replaced : Bool := false
  groupData : Option GroupData := none
  pipeline : Option PipelineData := none
  sdp : Option String := none
  renegotiate : Bool := false
deriving Repr, DecidableEq

/-- Inbound `IRTMTypeWebRTC` envelope (type = webrtc). -/
structure Msg where
  subtype : String := ""
  target : String := ""
  source : String := ""
  initiator : Bool := false
  state : String := ""
  channel : String := ""
  group : String := ""
  hash : String := ""
  data : Option MsgData := none
  v : Nat := 0
  transaction : String := ""
  pcid : Option String := none
  profile : Option String := none
deriving Repr, DecidableEq

/-- The engine-visible part of a SimplePeer connection: its local id
(`pc._id`, modelled as a number drawn from a counter) and `destroyed`. -/
structure PC where
  id : Nat
  destroyed : Bool := false
deriving Repr, DecidableEq

/-- `PeerRecord` from src/webrtc.ts with the source's defaults. -/
structure PeerRecord where
  id : String := ""
  profile : Option String := none
  group : String := ""
  hash : String := ""
  initiator : Bool := false
  reconnect : Bool := true
  pc : Option PC := none
  ref : String := ""
  state : String := ""
  user : String := ""
  cid : String := ""
  transaction : String := ""
  rpcid : Option String := none
deriving Repr, DecidableEq

/-- `GroupController` state from src/group.ts. -/
structure GroupController where
  id : String
  record : PeerRecord
  channel : Option String := none
  members : List String := []
deriving Repr, DecidableEq

/-- `GroupController.hasMember`. -/
def hasMember (g : GroupController) (user : String) : Bool :=
  g.members.contains user

/-- Mutable state of a `WebRTCManager` (`ChannelOptions` is inlined: its only
field is `localStreamTarget`, kept as the id of the targeted record; local
media streams are identified by numbers). -/
structure Engine where
  user : String := ""
  channel : String := ""
  localStreamTarget : Option String := none
  group : Option GroupController := none
  peers : List (String × PeerRecord) := []
  localStream : Option Nat := none
  pcSeq : Nat := 0
deriving Repr, DecidableEq

/-- Outbound data object attached to a `webrtc` payload (`{accept, reason?,
state}` on call/hangup payloads, `{renegotiate: true}` on synthetic
signals). -/
structure CallData where
  accept : Bool := false
  reason : String := ""
  state : String := ""
  renegotiate : Bool := false
deriving Repr, DecidableEq

/-- Outbound `webrtc` envelope as built by `sendWebrtc` and by the peer
connection `signal` handler (`id`/`type` fields omitted: `id` is assigned by
the transport, `type` is always "webrtc"). -/
structure WPayload where
  subtype : String
  channel : String
  data : Option CallData := none
  group : String := ""
  hash : String := ""
  initiator : Bool := false
  state : String := ""
  target : String := ""
  transaction : String := ""
  pcid : Option Nat := none
  v : Nat := webrtcVersion
deriving Repr, DecidableEq

/-- Externally visible effects of an engine operation, in order. -/
inductive WOut where
  /-- `kwm.sendWebSocketPayload` of a webrtc payload. -/
  | wsSend (p : WPayload)
  /-- `dispatchEvent` of a `WebRTCPeerEvent` with the given event type,
  identifying the record by id. -/
  | event (name : String) (peerId : String)
  /-- a new SimplePeer was constructed for the record with the given
  initiator flag. -/
  | pcNew (pcid : Nat) (peerId : String) (initiator : Bool)
  /-- `p2p.registerConnection`. -/
  | p2pRegister (pcid : Nat) (user : String)
  /-- `pc.destroy()`. -/
  | pcDestroy (pcid : Nat)
  /-- `record.pc.signal(data)` fed with inbound signal data. -/
  | pcSignalIn (pcid : Nat) (d : MsgData)
  /-- `pc.removeStream(stream)`. -/
  | pcRemoveStream (pcid : Nat) (stream : Nat)
  /-- `pc.addStream(stream)`. -/
  | pcAddStream (pcid : Nat) (stream : Nat)
  /-- `setTimeout`-deferred `sendHangup(channel, record, '')`. -/
  | deferredHangupPeer (peerId : String) (channel : String)
  /-- `setTimeout`-deferred `doHangup(undefined, '')`. -/
  | deferredHangupAll
deriving Repr, DecidableEq

/-- `Map.get` on the peer table. -/
def mapGet : List (String × PeerRecord) → String → Option PeerRecord
  | [], _ => none
  | e :: rest, k => if e.1 = k then some e.2 else mapGet rest k

/-- `Map.set`: replace in place if the key exists, else append. -/
def mapSet : List (String × PeerRecord) → String → PeerRecord → List (String × PeerRecord)
  | [], k, v => [(k, v)]
  | e :: rest, k, v => if e.1 = k then (k, v) :: rest else e :: mapSet rest k v

/-- `Map.delete`. -/
def mapDelete (m : List (String × PeerRecord)) (k : String) : List (String × PeerRecord) :=
  m.filter (fun e => !(e.1 = k : Bool))

theorem mapGet_mapSet_self (m : List (String × PeerRecord)) (k : String) (v : PeerRecord) :
    mapGet (mapSet m k v) k = some v := by
  induction m with
  | nil => simp [mapGet, mapSet]
  | cons e rest ih =>
      by_cases h : e.1 = k
      · simp [mapGet, mapSet, h]
      · simp [mapGet, mapSet, h, ih]

theorem mapGet_mapDelete_self (m : List (String × PeerRecord)) (k : String) :
    mapGet (mapDelete m k) k = none := by
  induction m with
  | nil => simp [mapGet, mapDelete]
  | cons e rest ih =>
      by_cases h : e.1 = k
      · simpa [mapDelete, h] using ih
      · simpa [mapDelete, mapGet, h] using ih

theorem mapDelete_of_get_none (m : List (String × PeerRecord)) (k : String)
    (h : mapGet m k = none) : mapDelete m k = m := by
  induction m with
  | nil => simp [mapDelete]
  | cons e rest ih =>
      by_cases he : e.1 = k
      · simp [mapGet, he] at h
      · simp [mapGet, he] at h
        simp [mapDelete, he] at ih ⊢
        exact ih h

/-- `WebRTCBaseManager.isLocalStreamTarget`: true when no
`channelOptions.localStreamTarget` is set or it is this record. -/
def isLocalStreamTarget (st : Engine) (r : PeerRecord) : Bool :=
  match st.localStreamTarget with
  | none => true
  | some id => id = r.id

/-- `WebRTCManager.computeInitiator`: false when no user is set, else
`user < record.user ? false : true`. -/
def computeInitiator (st : Engine) (record : PeerRecord) : Bool :=
  if st.user = "" then false
  else if st.user < record.user then false else true

/-- Payload built by `WebRTCManager.sendWebrtc`. -/
def mkWebrtcPayload (subtype channel : String) (record : PeerRecord)
    (data : Option CallData) (transaction : String) : WPayload :=
  { subtype := subtype
    channel := channel
    data := data
    group := record.group
    hash := record.hash
    initiator := record.initiator
    state := record.state
    target := record.user
    transaction := transaction }

/-- Payload built by the `pc.on('signal')` handler installed by
`getPeerConnection` (no initiator/transaction fields in the source object). -/
def signalPayload (channel : String) (record : PeerRecord) (pcid : Nat)
    (data : CallData) : WPayload :=
  { subtype := "webrtc_signal"
    channel := channel
    data := some data
    group := record.group
    hash := record.hash
    state := record.state
    target := record.user
    pcid := some pcid }

/-- Synchronous effects of `WebRTCBaseManager.getPeerConnection`: construct a
fresh SimplePeer, bind `record.pc`/`record.rpcid`, register it with the P2P
controller and dispatch `pc.new`. The caller writes the updated record back
into the map entry it was retrieved from (the source mutates the aliased
object). Event handlers installed on the pc fire later and are not part of
this synchronous step. -/
def getPeerConnection (st : Engine) (initiator : Bool) (r : PeerRecord)
    (rpcid : Option String) : Engine × PeerRecord × Nat × List WOut :=
  let pcid := st.pcSeq
  let r1 : PeerRecord := { r with pc := some { id := pcid }, rpcid := rpcid }
  ({ st with pcSeq := st.pcSeq + 1 }, r1, pcid,
    [WOut.pcNew pcid r.id initiator, WOut.p2pRegister pcid r.user,
      WOut.event "pc.new" r.id])

/-- `WebRTCManager.sendHangup`: always delete the record from the peer table
and destroy its pc; send a `webrtc_hangup` payload only when `reason` is
non-empty. Returns the updated engine, the mutated record object and the
effects. -/
def sendHangup (st : Engine) (channel : String) (record : PeerRecord)
    (reason : String) : Engine × PeerRecord × List WOut :=
  let st1 : Engine := { st with peers := mapDelete st.peers record.id }
  let destroyOuts : List WOut :=
    match record.pc with
    | some pc => [WOut.pcDestroy pc.id]
    | none => []
  let record1 : PeerRecord := { record with pc := none }
  let sendOuts : List WOut :=
    if reason ≠ "" then
      [WOut.wsSend (mkWebrtcPayload "webrtc_hangup" channel record1
        (some { accept := false, reason := reason, state := record1.ref }) "")]
    else []
  (st1, record1, destroyOuts ++ [WOut.event "destroycall" record.id] ++ sendOuts)

/-- `WebRTCManager.setLocalStream`: no-op when the stream is the one already
stored; otherwise store it and, for every peer that is a local stream target
and has a pc, remove the old stream and add the new one. -/
def setLocalStream (st : Engine) (stream : Option Nat) : Engine × List WOut :=
  if st.localStream = stream then (st, [])
  else
    let oldStream := st.localStream
    let st1 : Engine := { st with localStream := stream }
    let outs := st1.peers.foldl (fun acc e =>
      if isLocalStreamTarget st1 e.2 then
        match e.2.pc with
        | some pc =>
            let rm : List WOut := match oldStream with
              | some s => [WOut.pcRemoveStream pc.id s]
              | none => []
            let ad : List WOut := match stream with
              | some s => [WOut.pcAddStream pc.id s]
              | none => []
            acc ++ rm ++ ad
        | none => acc
      else acc) ([] : List WOut)
    (st1, outs)

/-- `WebRTCManager.doAnswer`, run atomically through its awaited
fire-and-forget send: dispatch `newcall`, send the accept payload with the
record's transaction, then clear the transaction. -/
def doAnswer (st : Engine) (user : String) : Except String (Engine × List WOut) :=
  if st.channel = "" then .error "no channel"
  else
    match mapGet st.peers user with
    | none => .error "no matching peer"
    | some record =>
        let payload := mkWebrtcPayload "webrtc_call" st.channel record
          (some { accept := true, state := record.ref }) record.transaction
        let record1 : PeerRecord := { record with transaction := "" }
        let st1 : Engine := { st with peers := mapSet st.peers user record1 }
        .ok (st1, [WOut.event "newcall" record.id, WOut.wsSend payload])

/-- `WebRTCManager.doReject`: send the reject payload, clear the transaction,
then hang the peer up locally (empty reason). -/
def doReject (st : Engine) (user : String) (reason : String) :
    Except String (Engine × List WOut) :=
  if st.channel = "" then .error "no channel"
  else
    match mapGet st.peers user with
    | none => .error "no matching peer"
    | some record =>
        let payload := mkWebrtcPayload "webrtc_call" st.channel record
          (some { accept := false, reason := reason, state := record.ref })
          record.transaction
        let record1 : PeerRecord := { record with transaction := "" }
        let st1 : Engine := { st with peers := mapSet st.peers user record1 }
        let h := sendHangup st1 st1.channel record1 ""
        .ok (h.1, [WOut.wsSend payload] ++ h.2.2)

/-- The `peers.forEach(... sendHangup ...)` loop of `doHangup('')`, folded
over a snapshot of the table's records (each iteration only deletes its own
entry, so visiting the snapshot matches the JavaScript Map semantics). -/
def hangupAllLoop (channel reason : String) :
    List PeerRecord → Engine → List WOut → Engine × List WOut
  | [], st, outs => (st, outs)
  | r :: rest, st, outs =>
      let h := sendHangup st channel r reason
      hangupAllLoop channel reason rest h.1 (outs ++ h.2.2)

/-- `WebRTCManager.doHangup`: with an empty user, clear channel, channel
options and group, then hang up the group record (if any) and every peer;
with a user, hang up that peer only. -/
def doHangup (st : Engine) (user : String) (reason : String) :
    Except String (Engine × List WOut) :=
  let channel := st.channel
  let group := st.group
  if user = "" then
    let st1 : Engine := { st with channel := "", localStreamTarget := none, group := none }
    let (st2, outsG) :=
      match group with
      | some g =>
          let h := sendHangup st1 channel g.record reason
          (h.1, h.2.2)
      | none => (st1, [])
    .ok (hangupAllLoop channel reason (st2.peers.map Prod.snd) st2 outsG)
  else
    match mapGet st.peers user with
    | none => .error "unknown peer"
    | some record =>
        let h := sendHangup st st.channel record reason
        .ok (h.1, h.2.2)

/-- The removal loop of `doMesh`: a local hangup (`doHangup(user, '')`) per
user no longer in the group. -/
def meshRemoveLoop : List String → Engine → List WOut → Engine × List WOut
  | [], st, outs => (st, outs)
  | u :: rest, st, outs =>
      match doHangup st u "" with
      | .ok (st1, o) => meshRemoveLoop rest st1 (outs ++ o)
      | .error _ => meshRemoveLoop rest st outs

/-- The addition loop of `doMesh`: create a record seeded from the group
record, insert it, and `doAnswer` it, swallowing answer failures. -/
def meshAddLoop (groupRecord : PeerRecord) :
    List String → Engine → List WOut → Engine × List WOut
  | [], st, outs => (st, outs)
  | u :: rest, st, outs =>
      let record : PeerRecord :=
        { id := u
          user := u
          group := groupRecord.group
          hash := groupRecord.hash
          ref := groupRecord.group
          state := groupRecord.group }
      let st1 : Engine := { st with peers := mapSet st.peers record.id record }
      match doAnswer st1 u with
      | .ok (st2, o) => meshAddLoop groupRecord rest st2 (outs ++ o)
      | .error _ => meshAddLoop groupRecord rest st1 outs

/-- `WebRTCManager.doMesh`: reconcile the peer table (records with empty
`cid`) to the given user list, removing first, then adding. Throws when no
user, no channel, or the list does not contain ourselves. -/
def doMesh (st : Engine) (users : List String) (groupRecord : PeerRecord) :
    Except String (Engine × List WOut) :=
  if st.user = "" then .error "no user"
  else if st.channel = "" then .error "no channel"
  else
    let ourselves := st.user
    let ok := users.contains ourselves
    let fromUsers := users.filter (fun u => u != ourselves)
    let added1 := fromUsers.filter (fun u => (mapGet st.peers u).isNone)
    if ¬ ok then .error "mesh without self"
    else
      let removed := (st.peers.filter (fun e =>
        e.2.cid == "" && !(fromUsers.contains e.2.user))).map (fun e => e.2.user)
      let added2 := (st.peers.filter (fun e =>
        e.2.cid == "" && fromUsers.contains e.2.user &&
          (match e.2.pc with
           | none => true
           | some pc => pc.destroyed))).map (fun e => e.2.user)
      let r := meshRemoveLoop removed st []
      .ok (meshAddLoop groupRecord (added1 ++ added2) r.1 r.2)

/-- Insertion step for the model of JavaScript `Array.sort()` on strings. -/
def insertSorted (x : String) : List String → List String
  | [] => [x]
  | y :: ys => if x ≤ y then x :: y :: ys else y :: insertSorted x ys

/-- `members.sort()`: lexicographic string sort. -/
def sortStrings (l : List String) : List String :=
  l.foldr insertSorted []

/-- `GroupController.updateMembers`, run atomically through its awaits.
When `reset` is set the code first awaits `doMesh([], record)` without a
catch handler; an error there rejects the (fire-and-forget) promise and
nothing further runs — the rejection is reported in the third component.
Otherwise the member list is stored and the mesh reconciled, mesh errors
being caught and logged. -/
def updateMembers (st : Engine) (g : GroupController) (members : List String)
    (reset : Bool) : Engine × List WOut × Option String :=
  let next : Engine → List WOut → Engine × List WOut × Option String :=
    fun st1 outs1 =>
      let g1 : GroupController := { g with members := members }
      let st2 : Engine := { st1 with group := some g1 }
      match doMesh st2 members g1.record with
      | .ok (st3, o2) => (st3, outs1 ++ o2, none)
      | .error _ => (st2, outs1, none)
  if reset then
    match doMesh st [] g.record with
    | .error e => (st, [], some e)
    | .ok (st1, o1) => next st1 o1
  else next st []

/-- `GroupController.handleWebRTCMessage` (src/group.ts) for the controller
`g` installed in `st.group`: on `webrtc_channel` for this group, adopt the
channel, sort the members and update the mesh. The third component is the
unhandled rejection of the fire-and-forget `updateMembers` call, if any. -/
def groupHandleWebRTCMessage (st : Engine) (g : GroupController) (m : Msg) :
    Engine × List WOut × Option String :=
  match m.subtype with
  | "webrtc_channel" =>
      if (match g.channel with
          | some c => c != "" && m.channel != c
          | none => false) then (st, [], none)
      else
        match m.data with
        | none => (st, [], none)
        | some d =>
            match d.groupData with
            | none => (st, [], none)
            | some gd =>
                if gd.group ≠ g.id then (st, [], none)
                else
                  let g1 : GroupController := { g with channel := some m.channel }
                  let st1 : Engine := { st with group := some g1 }
                  let members := sortStrings gd.members
                  updateMembers st1 g1 members gd.reset
  | _ => (st, [], none)

/-- `WebRTCManager.handleWebRTCExtraChannelData`: the `replaced` flag
schedules a deferred local full hangup; group data is delegated to the
group controller; `mcu-forward` pipeline data enables the pipeline peer and
makes it the local stream target. `fresh2` is the nonce for the pipeline
record. -/
def handleWebRTCExtraChannelData (fresh2 : String) (st : Engine) (m : Msg) :
    Engine × List WOut :=
  match m.data with
  | none => (st, [])
  | some d =>
      if d.replaced then (st, [WOut.deferredHangupAll])
      else
        let (st1, outs1) :=
          match d.groupData, st.group with
          | some _, some g =>
              let r := groupHandleWebRTCMessage st g m
              (r.1, r.2.1)
          | _, _ => (st, [])
        match d.pipeline with
        | some pl =>
            if pl.mode ≠ "" then
              match pl.mode with
              | "mcu-forward" =>
                  match st1.group with
                  | some g =>
                      if (mapGet st1.peers pl.pipeline).isNone then
                        let record : PeerRecord :=
                          { id := pl.pipeline
                            user := pl.pipeline
                            state := fresh2
                            ref := pl.pipeline
                            hash := g.record.hash
                            cid := pl.mode }
                        let st2 : Engine := { st1 with
                          localStreamTarget := some record.id
                          peers := mapSet st1.peers record.id record }
                        (st2, outs1)
                      else (st1, outs1)
                  | none => (st1, outs1)
              | _ => (st1, outs1)
            else (st1, outs1)
        | none => (st1, outs1)

/-- The `initiator = true` arm of the `webrtc_call` case of
`handleWebRTCMessage`: an incoming call relayed by the server. `fresh` is
the nonce for the new callee record. -/
def handleWebrtcCallInitiator (fresh fresh2 : String) (st : Engine) (m : Msg) :
    Engine × List WOut :=
  let cont : Unit → Engine × List WOut := fun _ =>
    let record : PeerRecord :=
      { id := m.source
        profile := m.profile
        user := m.source
        state := fresh
        ref := m.state
        hash := m.hash
        transaction := m.transaction }
    if st.channel ≠ "" then
      (st, [WOut.wsSend (mkWebrtcPayload "webrtc_call" m.channel record
        (some { accept := false, reason := "reject_busy", state := record.ref })
        record.transaction)])
    else if st.channel ≠ "" ∧ st.channel ≠ m.channel then (st, [])
    else
      let (st1, outs1) :=
        if m.data.isSome then handleWebRTCExtraChannelData fresh2 st m
        else (st, [])
      let st2 : Engine := { st1 with
        channel := m.channel
        peers := mapSet st1.peers record.id record }
      (st2, outs1 ++ [WOut.event "incomingcall" record.id])
  if m.source = "" then (st, [])
  else
    match mapGet st.peers m.source with
    | some record0 =>
        if m.target = "" then
          (st, [WOut.deferredHangupPeer record0.id m.channel])
        else cont ()
    | none => cont ()

/-- The hash-mismatch exception of the `webrtc_call` reply arm: the group
hash exchange is allowed only for an accepted call whose record and message
reference the currently active group. -/
def hashExchangeCond (st : Engine) (record : PeerRecord) (mgroup : String)
    (d : MsgData) : Bool :=
  match st.group with
  | some g =>
      record.group != "" && mgroup != "" && record.group == mgroup &&
        record.group == g.id && d.accept
  | none => false

/-- The `initiator = false` arm of the `webrtc_call` case of
`handleWebRTCMessage`: the reply to our outbound call. -/
def handleWebrtcCallReply (st : Engine) (m : Msg) : Engine × List WOut :=
  match mapGet st.peers m.source with
  | none => (st, [])
  | some record =>
      match m.data with
      | none => (st, [])
      | some d =>
          if record.state ≠ d.state then (st, [])
          else
            let step : Option PeerRecord :=
              if record.hash ≠ m.hash then
                if hashExchangeCond st record m.group d then
                  some { record with hash := m.hash }
                else none
              else some record
            match step with
            | none => (st, [])
            | some record1 =>
                let st1 : Engine :=
                  { st with peers := mapSet st.peers m.source record1 }
                if ¬ d.accept then
                  (st1, [WOut.event "abortcall" record1.id])
                else
                  let record2 : PeerRecord :=
                    { record1 with ref := m.state, profile := m.profile }
                  let initiator := computeInitiator st1 record2
                  let g := getPeerConnection st1 initiator record2 none
                  let st2 : Engine :=
                    { g.1 with peers := mapSet g.1.peers m.source g.2.1 }
                  let outs2 :=
                    if initiator then []
                    else
                      [WOut.wsSend (signalPayload st2.channel g.2.1 g.2.2.1
                        { renegotiate := true })]
                  (st2, g.2.2.2 ++ outs2 ++ [WOut.event "outgoingcall" g.2.1.id])

/-- The `webrtc_channel` case of `handleWebRTCMessage`. -/
def handleWebrtcChannel (fresh2 : String) (st : Engine) (m : Msg) :
    Engine × List WOut :=
  if st.channel ≠ "" ∧ m.data = none then (st, [])
  else
    let st1 : Engine := { st with channel := m.channel }
    if m.data.isSome then handleWebRTCExtraChannelData fresh2 st1 m
    else (st1, [])

/-- The `webrtc_hangup` case of `handleWebRTCMessage`: a local hangup (empty
reason) plus a `hangup` event. -/
def handleWebrtcHangup (st : Engine) (m : Msg) : Engine × List WOut :=
  if m.channel = "" ∨ st.channel ≠ m.channel then (st, [])
  else
    match m.data with
    | none => (st, [])
    | some _ =>
        match mapGet st.peers m.source with
        | none => (st, [])
        | some record =>
            if record.ref ≠ m.state ∧ record.ref ≠ "" then (st, [])
            else
              let h := sendHangup st st.channel record ""
              (h.1, h.2.2 ++ [WOut.event "hangup" record.id])

/-- The `webrtc_signal` case of `handleWebRTCMessage`: channel/state checks,
remote pc id reconciliation, on-demand pc creation, optional remote SDP
transform (`cfg`), then feed the data to the pc. -/
def handleWebrtcSignal (cfg : Option (String → String)) (st : Engine) (m : Msg) :
    Engine × List WOut :=
  if m.channel = "" ∨ st.channel ≠ m.channel then (st, [])
  else
    match m.data with
    | none => (st, [])
    | some d =>
        match mapGet st.peers m.source with
        | none => (st, [])
        | some record =>
            if record.ref ≠ m.state ∧ record.ref ≠ "" then (st, [])
            else
              let step : PeerRecord × List WOut :=
                if m.pcid ≠ record.rpcid then
                  match record.rpcid with
                  | none =>
                      match record.pc, m.pcid with
                      | some _, some mpcid =>
                          ({ record with rpcid := some mpcid }, [])
                      | _, _ => (record, [])
                  | some _ =>
                      match record.pc with
                      | some pc =>
                          ({ record with pc := none }, [WOut.pcDestroy pc.id])
                      | none => (record, [])
                else (record, [])
              let record1 := step.1
              let st1 : Engine := { st with peers := mapSet st.peers m.source record1 }
              let created : Engine × PeerRecord × List WOut :=
                if record1.pc.isNone then
                  let g := getPeerConnection st1 (computeInitiator st1 record1)
                    record1 m.pcid
                  ({ g.1 with peers := mapSet g.1.peers m.source g.2.1 },
                    g.2.1, g.2.2.2)
                else (st1, record1, [])
              let d1 : MsgData :=
                match cfg, d.sdp with
                | some f, some s => { d with sdp := some (f s) }
                | _, _ => d
              match created.2.1.pc with
              | some pc =>
                  (created.1, step.2 ++ created.2.2 ++ [WOut.pcSignalIn pc.id d1])
              | none => (created.1, step.2 ++ created.2.2)

/-- `WebRTCManager.handleWebRTCMessage`: version gate and dispatch on the
subtype. `fresh`/`fresh2` are the nonces the branches may consume, `cfg` is
the configured `remoteSDPTransform`. -/
def handleWebRTCMessage (fresh fresh2 : String) (cfg : Option (String → String))
    (st : Engine) (m : Msg) : Engine × List WOut :=
  if m.v = 0 ∨ m.v < webrtcVersion then (st, [])
  else
    match m.subtype with
    | "webrtc_call" =>
        if m.initiator then handleWebrtcCallInitiator fresh fresh2 st m
        else handleWebrtcCallReply st m
    | "webrtc_channel" => handleWebrtcChannel fresh2 st m
    | "webrtc_hangup" => handleWebrtcHangup st m
    | "webrtc_signal" => handleWebrtcSignal cfg st m
    | _ => (st, [])

/-- Synchronous prefix of the fire-and-forget `refreshGroup`: draw a new
state nonce for the group record and send `webrtc_group` (the awaited reply
is processed in a later turn and is not part of this step). -/
def refreshGroupStart (freshG : String) (st : Engine) (g : GroupController) :
    Engine × List WOut :=
  let record1 : PeerRecord := { g.record with state := freshG }
  let g1 : GroupController := { g with record := record1 }
  let st1 : Engine := { st with group := some g1 }
  (st1, [WOut.wsSend (mkWebrtcPayload "webrtc_group" "" record1 none "")])

/-- `WebRTCManager.handleHello`: adopt the user id from `hello.self` (falling
back to the session controller's remembered user), trigger a full
`doHangup()` — with the default reason "hangup" — when a different user
replaces one with an active channel, and refresh the group when the user is
one of its members. -/
def handleHello (freshG : String) (st : Engine) (selfId : String)
    (userParam : String) : Except String (Engine × List WOut) :=
  if selfId = "" ∧ userParam = "" then
    .error "hello without self - kwm server too old?"
  else
    let user := if selfId ≠ "" then selfId else userParam
    let (st1, outs1) :=
      if st.user ≠ "" ∧ st.channel ≠ "" ∧ user ≠ st.user then
        match doHangup st "" "hangup" with
        | .ok r => r
        | .error _ => (st, [])
      else (st, [])
    let st2 : Engine := { st1 with user := user }
    match st2.group with
    | some g =>
        if user ≠ "" ∧ hasMember g user then
          let r := refreshGroupStart freshG st2 g
          .ok (r.1, outs1 ++ r.2)
        else .ok (st2, outs1)
    | none => .ok (st2, outs1)

/-! Transport client (src/kwm.ts): reply correlation and reconnect backoff. -/

/-- The transport state relevant to reply matching: the per-connection
sequence counter and the reply handler table (key is the id the request was
sent with; the handler itself is identified by an abstract token standing
for its resolve function). -/
structure KwmState where
  websocketSequence : Nat := 0
  replyHandlers : List (Nat × Nat) := []
deriving Repr, DecidableEq

/-- Operations driving the reply-matching machine: `sendWebSocketPayload`
with a reply timeout, and receipt of an inbound envelope. -/
inductive KwmOp where
  | send (token : Nat) (replyTimeout : Nat)
  | recv (type : String) (id : Nat) (replyTo : Nat)
deriving Repr, DecidableEq

/-- Observable events of the reply-matching machine. -/
inductive KwmEv where
  /-- payload transmitted with the assigned id and a reply handler
  registered under it. -/
  | sent (token : Nat) (id : Nat)
  /-- payload transmitted fire-and-forget (no handler). -/
  | sentNoHandler (token : Nat) (id : Nat)
  /-- a registered reply handler was resolved by an envelope whose effective
  `reply_to` is the given value. -/
  | resolved (token : Nat) (replyTo : Nat)
  /-- a non-reply envelope was routed by type. -/
  | routed (type : String)
  /-- a reply arrived for which no handler was registered. -/
  | noHandler (replyTo : Nat)
deriving Repr, DecidableEq

/-- The `reply_to` used for handler lookup in `handleWebSocketMessage`: a
`pong` echoes only `id`, so `reply_to := id` is synthesised at receipt. -/
def effectiveReplyTo (type : String) (id replyTo : Nat) : Nat :=
  if type = "pong" then id else replyTo

/-- One step of the transport client: `sendWebSocketPayload` assigns
`++websocketSequence` as the payload id and registers a handler when the
reply timeout is positive; `handleWebSocketMessage` resolves and removes the
handler stored under the (effective) `reply_to` when one exists, else routes
the envelope by type (`reply_to` 0 models an absent field). -/
def kwmStep (st : KwmState) : KwmOp → KwmState × List KwmEv
  | .send token replyTimeout =>
      let newId := st.websocketSequence + 1
      let st1 : KwmState := { st with websocketSequence := newId }
      if replyTimeout > 0 then
        ({ st1 with replyHandlers := (newId, token) :: st1.replyHandlers },
          [.sent token newId])
      else (st1, [.sentNoHandler token newId])
  | .recv type id replyTo =>
      let ert := effectiveReplyTo type id replyTo
      if ert ≠ 0 then
        match st.replyHandlers.find? (fun e => e.1 == ert) with
        | some e =>
            ({ st with replyHandlers :=
                st.replyHandlers.filter (fun x => !(x.1 == ert)) },
              [.resolved e.2 ert])
        | none => (st, [.noHandler ert])
      else (st, [.routed type])

/-- Run the transport machine over a list of operations from a given state,
accumulating events. -/
def kwmRunFrom (st : KwmState) (evs : List KwmEv) :
    List KwmOp → KwmState × List KwmEv
  | [] => (st, evs)
  | op :: ops =>
      let r := kwmStep st op
      kwmRunFrom r.1 (evs ++ r.2) ops

/-- Run the transport machine from the initial state. -/
def kwmRun (ops : List KwmOp) : KwmState × List KwmEv :=
  kwmRunFrom {} [] ops

/-- Configuration knobs of the reconnect policy (`KWMInit.options`),
modelled over the rationals. -/
structure ReconnectOptions where
  reconnectInterval : ℚ
  reconnectFactor : ℚ
  maxReconnectInterval : ℚ
  reconnectSpreader : ℚ
deriving Repr, DecidableEq

/-- `Math.trunc`: round toward zero. -/
def jsTrunc (x : ℚ) : ℤ :=
  if 0 ≤ x then ⌊x⌋ else -⌊-x⌋

/-- The delay computed by the `reconnector` closure in `KWM.connect` before
the next connect attempt: starting from `reconnectInterval`, a non-fast
reconnect multiplies by `Math.trunc(Math.pow(factor, attempts))`, clamps to
`maxReconnectInterval`, and adds `Math.floor(rand * reconnectSpreader)` for
the drawn `rand ∈ [0, 1)`. -/
def reconnectTimeout (o : ReconnectOptions) (attempts : Nat) (rand : ℚ)
    (fast : Bool) : ℚ :=
  let t0 := o.reconnectInterval
  if fast then t0
  else
    let t1 := t0 * (jsTrunc (o.reconnectFactor ^ attempts) : ℚ)
    let t2 := if t1 > o.maxReconnectInterval then o.maxReconnectInterval else t1
    t2 + (⌊rand * o.reconnectSpreader⌋ : ℚ)

/-- The backoff formula as worded by the specification ("min(maxInterval,
baseInterval × factor^attempts) + uniform(0, spreader)"), for the same
random draw. Second definition kept for comparison with the code's
`reconnectTimeout`. -/
def reconnectTimeoutClaimed (o : ReconnectOptions) (attempts : Nat)
    (rand : ℚ) : ℚ :=
  min o.maxReconnectInterval (o.reconnectInterval * o.reconnectFactor ^ attempts)
    + (⌊rand * o.reconnectSpreader⌋ : ℚ)

/-- The default`KWMInit.options` values. -/
def defaultReconnectOptions : ReconnectOptions :=
  { reconnectInterval := 1000
    reconnectFactor := 3 / 2
    maxReconnectInterval := 30000
    reconnectSpreader := 500 }

/-! Helper lemmas. -/

theorem not_string_lt_empty (s : String) : ¬ s < "" := by
  rw [String.lt_iff_toList_lt]
  simp only [String.toList]
  intro h
  exact List.Lex.not_nil_right _ _ h

/-! Claim theorems. -/

/-- C6 (counterexample): with the default options, one prior attempt and a
random draw of 0, the code's reconnect delay is 1000 ms, while the claimed
formula `min(maxInterval, baseInterval × factor^attempts) + uniform` yields
1500 ms for the same draw — the code truncates `factor^attempts` to an
integer before multiplying. -/
theorem c6_counterexample :
    reconnectTimeout defaultReconnectOptions 1 0 false = 1000 ∧
    reconnectTimeoutClaimed defaultReconnectOptions 1 0 = 1500 ∧
    reconnectTimeout defaultReconnectOptions 1 0 false ≠
      reconnectTimeoutClaimed defaultReconnectOptions 1 0 := by
  have hcode : reconnectTimeout defaultReconnectOptions 1 0 false = 1000 := by
    have h : jsTrunc (defaultReconnectOptions.reconnectFactor ^ 1) = 1 := by
      rw [defaultReconnectOptions, jsTrunc, if_pos (by norm_num)]
      rw [Int.floor_eq_iff]
      norm_num
    rw [reconnectTimeout]
    simp only [if_neg Bool.false_ne_true, h]
    norm_num [defaultReconnectOptions]
  have hclaim : reconnectTimeoutClaimed defaultReconnectOptions 1 0 = 1500 := by
    norm_num [reconnectTimeoutClaimed, defaultReconnectOptions]
  refine ⟨hcode, hclaim, ?_⟩
  rw [hcode, hclaim]
  norm_num

/-- C6 (amended): for every non-fast reconnect the delay equals
`min(maxReconnectInterval, reconnectInterval × trunc(reconnectFactor ^
attempts))` plus `floor(rand × reconnectSpreader)` for the drawn
`rand ∈ [0, 1)`; a fast reconnect uses `reconnectInterval` with no backoff
computation. -/
theorem c6_amended_reconnect_backoff (o : ReconnectOptions) (attempts : Nat)
    (rand : ℚ) :
    reconnectTimeout o attempts rand false
      = min o.maxReconnectInterval
          (o.reconnectInterval * (jsTrunc (o.reconnectFactor ^ attempts) : ℚ))
        + (⌊rand * o.reconnectSpreader⌋ : ℚ) ∧
    reconnectTimeout o attempts rand true = o.reconnectInterval := by
  constructor
  · rw [reconnectTimeout]
    simp only [if_neg Bool.false_ne_true]
    rcases le_or_lt (o.reconnectInterval * (jsTrunc (o.reconnectFactor ^ attempts) : ℚ))
      o.maxReconnectInterval with h | h
    · rw [if_neg (not_lt.mpr h), min_eq_right h]
    · rw [if_pos h, min_eq_left h.le]
  · rw [reconnectTimeout]
    simp

/-- C7: `sendHangup` always performs the local transition — the record is
removed from the peer table (and only that changes in the engine state), its
pc, if any, is destroyed and unbound — and a `webrtc_hangup` envelope is
sent if and only if the supplied reason is non-empty. -/
theorem c7_sendHangup_local_iff_empty_reason (st : Engine) (channel : String)
    (record : PeerRecord) (reason : String) :
    mapGet (sendHangup st channel record reason).1.peers record.id = none ∧
    (sendHangup st channel record reason).1
      = { st with peers := mapDelete st.peers record.id } ∧
    (sendHangup st channel record reason).2.1.pc = none ∧
    (∀ pc, record.pc = some pc →
      WOut.pcDestroy pc.id ∈ (sendHangup st channel record reason).2.2) ∧
    ((∃ p, WOut.wsSend p ∈ (sendHangup st channel record reason).2.2 ∧
        p.subtype = "webrtc_hangup") ↔ reason ≠ "") := by
  refine ⟨?_, rfl, rfl, ?_, ?_⟩
  · exact mapGet_mapDelete_self st.peers record.id
  · intro pc h
    simp [sendHangup, h]
  · constructor
    · rintro ⟨p, hp, hsub⟩
      intro hreason
      simp only [sendHangup, hreason, ne_eq, not_true_eq_false, if_false,
        List.append_nil] at hp
      rcases List.mem_append.mp hp with hp1 | hp2
      · cases hpc : record.pc with
        | none => simp [hpc] at hp1
        | some pc => simp [hpc] at hp1
      · simp at hp2
    · intro hreason
      refine ⟨mkWebrtcPayload "webrtc_hangup" channel
        { record with pc := none }
        (some { accept := false, reason := reason,
                state := ({ record with pc := none } : PeerRecord).ref }) "",
        ?_, rfl⟩
      simp only [sendHangup, if_pos hreason, List.mem_append]
      right
      exact List.mem_singleton.mpr rfl

/-- C9: provided the local user is set, `computeInitiator` returns true
exactly when the local user id is lexicographically at least the record's
user id, and for two engines mirroring a pair of distinct user ids exactly
one of the two computes `initiator = true` for the other. -/
theorem c9_computeInitiator_total_order (st : Engine) (r : PeerRecord)
    (h : st.user ≠ "") :
    (computeInitiator st r = true ↔ r.user ≤ st.user) ∧
    (∀ st2 : Engine, ∀ r2 : PeerRecord,
      st2.user = r.user → r2.user = st.user → st.user ≠ r.user →
      (computeInitiator st r = true ∧ computeInitiator st2 r2 = false) ∨
      (computeInitiator st r = false ∧ computeInitiator st2 r2 = true)) := by
  constructor
  · rw [computeInitiator, if_neg h]
    by_cases hlt : st.user < r.user
    · simp [hlt, not_le.mpr hlt]
    · simp [hlt, not_lt.mp hlt]
  · intro st2 r2 h2 h3 hne
    rw [computeInitiator, computeInitiator, if_neg h, h2, h3]
    by_cases hr : r.user = ""
    · left
      rw [hr]
      rw [if_neg (not_string_lt_empty st.user), if_pos rfl]
      exact ⟨rfl, rfl⟩
    · rw [if_neg hr]
      rcases lt_trichotomy st.user r.user with hlt | heq | hgt
      · right
        rw [if_pos hlt, if_neg (not_lt.mpr hlt.le)]
        exact ⟨rfl, rfl⟩
      · exact absurd heq hne
      · left
        rw [if_neg (not_lt.mpr hgt.le), if_pos hgt]
        exact ⟨rfl, rfl⟩

/-- C10: `setLocalStream` with the currently stored stream (including no
stream at all) is a no-op — no stream is removed from or added to any peer
connection and the engine is unchanged — and consequently applying
`setLocalStream` twice with the same argument equals applying it once, the
second application emitting no effects. -/
theorem c10_setLocalStream_idempotent (st : Engine) (stream : Option Nat) :
    (st.localStream = stream → setLocalStream st stream = (st, [])) ∧
    setLocalStream (setLocalStream st stream).1 stream
      = ((setLocalStream st stream).1, []) := by
  constructor
  · intro h
    rw [setLocalStream, if_pos h]
  · by_cases h : st.localStream = stream
    · have h1 : (setLocalStream st stream).1 = st := by
        rw [setLocalStream, if_pos h]
      rw [h1, setLocalStream, if_pos h]
    · have h1 : (setLocalStream st stream).1 = { st with localStream := stream } := by
        rw [setLocalStream, if_neg h]
      rw [h1, setLocalStream, if_pos rfl]

/-- C7 (witness): a concrete hangup with reason "hangup" of a record with a
bound pc destroys the pc and sends a `webrtc_hangup`. -/
theorem c7_witness :
    WOut.pcDestroy 3 ∈
      (sendHangup {} "ch-1" { id := "bob", pc := some { id := 3 } } "hangup").2.2 ∧
    (∃ p, WOut.wsSend p ∈
        (sendHangup {} "ch-1" { id := "bob", pc := some { id := 3 } } "hangup").2.2 ∧
      p.subtype = "webrtc_hangup") :=
  ⟨(c7_sendHangup_local_iff_empty_reason {} "ch-1"
      { id := "bob", pc := some { id := 3 } } "hangup").2.2.2.1 { id := 3 } rfl,
    (c7_sendHangup_local_iff_empty_reason {} "ch-1"
      { id := "bob", pc := some { id := 3 } } "hangup").2.2.2.2.mpr (by decide)⟩

/-- C9 (witness): with local user "bob" and remote user "alice",
`computeInitiator` is true since "alice" ≤ "bob". -/
theorem c9_witness :
    (({ user := "bob" } : Engine).user ≠ "") ∧
    (computeInitiator { user := "bob" } ({ user := "alice" } : PeerRecord) = true ↔
      ({ user := "alice" } : PeerRecord).user ≤ ({ user := "bob" } : Engine).user) :=
  ⟨by decide,
    (c9_computeInitiator_total_order { user := "bob" } { user := "alice" }
      (by decide)).1⟩

/-- C10 (witness): on a fresh engine with no stored stream, `setLocalStream`
with no stream is a no-op. -/
theorem c10_witness :
    (({} : Engine).localStream = none) ∧
    setLocalStream {} none = (({} : Engine), []) :=
  ⟨rfl, (c10_setLocalStream_idempotent {} none).1 rfl⟩

/-- Trace invariant of the reply-matching machine: every registered handler
was registered by a send that assigned it the key as payload id, and every
resolution matches such a send. -/
def kwmTrace (st : KwmState) (evs : List KwmEv) : Prop :=
  (∀ e ∈ st.replyHandlers, KwmEv.sent e.2 e.1 ∈ evs) ∧
  (∀ tok rt : Nat, KwmEv.resolved tok rt ∈ evs → KwmEv.sent tok rt ∈ evs)

theorem kwmStep_trace (st : KwmState) (evs : List KwmEv) (op : KwmOp)
    (h : kwmTrace st evs) :
    kwmTrace (kwmStep st op).1 (evs ++ (kwmStep st op).2) := by
  obtain ⟨h1, h2⟩ := h
  cases op with
  | send tok timeout =>
      by_cases ht : timeout > 0
      · simp only [kwmStep, if_pos ht]
        constructor
        · intro e he
          rcases List.mem_cons.mp he with rfl | he2
          · exact List.mem_append.mpr (Or.inr (List.mem_singleton.mpr rfl))
          · exact List.mem_append.mpr (Or.inl (h1 e he2))
        · intro t r hm
          rcases List.mem_append.mp hm with hm1 | hm2
          · exact List.mem_append.mpr (Or.inl (h2 t r hm1))
          · simp at hm2
      · simp only [kwmStep, if_neg ht]
        constructor
        · intro e he
          exact List.mem_append.mpr (Or.inl (h1 e he))
        · intro t r hm
          rcases List.mem_append.mp hm with hm1 | hm2
          · exact List.mem_append.mpr (Or.inl (h2 t r hm1))
          · simp at hm2
  | recv ty id replyTo =>
      by_cases hz : effectiveReplyTo ty id replyTo ≠ 0
      · cases hf : (st.replyHandlers.find? (fun e => e.1 == effectiveReplyTo ty id replyTo)) with
        | none =>
            simp only [kwmStep, if_pos hz, hf]
            constructor
            · intro e he
              exact List.mem_append.mpr (Or.inl (h1 e he))
            · intro t r hm
              rcases List.mem_append.mp hm with hm1 | hm2
              · exact List.mem_append.mpr (Or.inl (h2 t r hm1))
              · simp at hm2
        | some e0 =>
            have hmem : e0 ∈ st.replyHandlers := List.mem_of_find?_eq_some hf
            have hkey : (e0.1 == effectiveReplyTo ty id replyTo) = true := by
              have h5 := List.find?_some hf
              simpa using h5
            have hkey2 : e0.1 = effectiveReplyTo ty id replyTo := by
              simpa using hkey
            have hsent : KwmEv.sent e0.2 (effectiveReplyTo ty id replyTo) ∈ evs := by
              rw [← hkey2]
              exact h1 e0 hmem
            simp only [kwmStep, if_pos hz, hf]
            constructor
            · intro e he
              have he2 : e ∈ st.replyHandlers := List.mem_of_mem_filter he
              exact List.mem_append.mpr (Or.inl (h1 e he2))
            · intro t r hm
              rcases List.mem_append.mp hm with hm1 | hm2
              · exact List.mem_append.mpr (Or.inl (h2 t r hm1))
              · rcases List.mem_singleton.mp hm2 with h3
                cases h3
                exact List.mem_append.mpr (Or.inl hsent)
      · simp only [kwmStep, if_neg hz]
        constructor
        · intro e he
          exact List.mem_append.mpr (Or.inl (h1 e he))
        · intro t r hm
          rcases List.mem_append.mp hm with hm1 | hm2
          · exact List.mem_append.mpr (Or.inl (h2 t r hm1))
          · simp at hm2

theorem kwmRunFrom_trace (ops : List KwmOp) :
    ∀ (st : KwmState) (evs : List KwmEv), kwmTrace st evs →
      kwmTrace (kwmRunFrom st evs ops).1 (kwmRunFrom st evs ops).2 := by
  induction ops with
  | nil => intro st evs h; exact h
  | cons op rest ih =>
      intro st evs h
      rw [kwmRunFrom]
      exact ih _ _ (kwmStep_trace st evs op h)

/-- C8: in every run of the transport client from the initial state, a
resolved reply handler was registered by the send that assigned the
resolving envelope's effective `reply_to` as the request id, and a pong's
effective `reply_to` is synthesised from its own id (so it resolves the
handler registered under that id). -/
theorem c8_reply_correlation (ops : List KwmOp) (tok rt : Nat)
    (h : KwmEv.resolved tok rt ∈ (kwmRun ops).2) :
    KwmEv.sent tok rt ∈ (kwmRun ops).2 ∧
    (∀ id replyTo : Nat, effectiveReplyTo "pong" id replyTo = id) := by
  constructor
  · have := kwmRunFrom_trace ops {} [] ⟨by intro e he; simp at he, by intro t r hm; simp at hm⟩
    exact this.2 tok rt h
  · intro id replyTo
    rfl

/-- C8 (witness): a send with a reply timeout gets id 1; a pong carrying
only `id = 1` resolves that handler. -/
theorem c8_witness :
    KwmEv.resolved 7 1 ∈ (kwmRun [KwmOp.send 7 1000, KwmOp.recv "pong" 1 0]).2 ∧
    KwmEv.sent 7 1 ∈ (kwmRun [KwmOp.send 7 1000, KwmOp.recv "pong" 1 0]).2 :=
  ⟨by decide,
    (c8_reply_correlation [KwmOp.send 7 1000, KwmOp.recv "pong" 1 0] 7 1
      (by decide)).1⟩


/-! Lemmas about the full-hangup path (`doHangup` with empty user). -/

theorem hangupAllLoop_engine (channel reason : String) :
    ∀ (rs : List PeerRecord) (st : Engine) (outs : List WOut),
      (hangupAllLoop channel reason rs st outs).1
        = { st with peers := rs.foldl (fun m r => mapDelete m r.id) st.peers } := by
  intro rs
  induction rs with
  | nil => intro st outs; rfl
  | cons r rest ih =>
      intro st outs
      rw [hangupAllLoop]
      exact ih _ _

theorem foldl_mapDelete_filter :
    ∀ (rs : List PeerRecord) (m : List (String × PeerRecord)),
      rs.foldl (fun acc r => mapDelete acc r.id) m
        = m.filter (fun e => !(rs.map PeerRecord.id).contains e.1) := by
  intro rs
  induction rs with
  | nil => intro m; simp
  | cons r rest ih =>
      intro m
      rw [List.foldl_cons, ih, mapDelete, List.filter_filter]
      congr 1
      funext e
      by_cases he : e.1 = r.id
      · simp [he, List.contains_cons]
      · simp [he, List.contains_cons]

theorem foldl_mapDelete_snapshot_nil (m : List (String × PeerRecord))
    (h : ∀ e ∈ m, e.1 = e.2.id) :
    (m.map Prod.snd).foldl (fun acc r => mapDelete acc r.id) m = [] := by
  rw [foldl_mapDelete_filter]
  rw [List.filter_eq_nil_iff]
  intro e he
  simp
  exact ⟨e.1, e.2, he, (h e he).symm⟩

theorem hangupAllLoop_outs_mono (channel reason : String) :
    ∀ (rs : List PeerRecord) (st : Engine) (outs : List WOut) (o : WOut),
      o ∈ outs → o ∈ (hangupAllLoop channel reason rs st outs).2 := by
  intro rs
  induction rs with
  | nil => intro st outs o h; exact h
  | cons r rest ih =>
      intro st outs o h
      rw [hangupAllLoop]
      exact ih _ _ _ (List.mem_append.mpr (Or.inl h))

theorem hangupAllLoop_outs_mem (channel reason : String) (hreason : reason ≠ "") :
    ∀ (rs : List PeerRecord) (st : Engine) (outs : List WOut) (r : PeerRecord),
      r ∈ rs →
      WOut.wsSend (mkWebrtcPayload "webrtc_hangup" channel { r with pc := none }
          (some { accept := false, reason := reason, state := r.ref }) "")
        ∈ (hangupAllLoop channel reason rs st outs).2 := by
  intro rs
  induction rs with
  | nil => intro st outs r h; simp at h
  | cons r0 rest ih =>
      intro st outs r h
      rcases List.mem_cons.mp h with rfl | h2
      · rw [hangupAllLoop]
        apply hangupAllLoop_outs_mono
        apply List.mem_append.mpr
        right
        cases hpc : r.pc with
        | none => simp [sendHangup, hreason, hpc, mkWebrtcPayload]
        | some pc => simp [sendHangup, hreason, hpc, mkWebrtcPayload]
      · rw [hangupAllLoop]
        exact ih _ _ _ h2

theorem doHangup_all_spec (st : Engine) (reason : String)
    (hw : ∀ e ∈ st.peers, e.1 = e.2.id) :
    ∃ outs,
      doHangup st "" reason
        = .ok ({ st with
                 channel := ""
                 localStreamTarget := none
                 group := none
                 peers := [] }, outs) ∧
      ((reason ≠ "") → (∀ g ∈ st.group, mapGet st.peers g.record.id = none) →
        ∀ e ∈ st.peers,
          WOut.wsSend (mkWebrtcPayload "webrtc_hangup" st.channel
            { e.2 with pc := none }
            (some { accept := false, reason := reason, state := e.2.ref }) "")
            ∈ outs) := by
  cases hg0 : st.group with
  | none =>
      have hred : doHangup st "" reason
          = .ok (hangupAllLoop st.channel reason (st.peers.map Prod.snd)
              { st with channel := "", localStreamTarget := none, group := none } []) := by
        rw [doHangup, if_pos rfl, hg0]
      refine ⟨(hangupAllLoop st.channel reason (st.peers.map Prod.snd)
          { st with channel := "", localStreamTarget := none, group := none } []).2,
        ?_, ?_⟩
      · rw [hred]
        congr 1
        refine Prod.ext_iff.mpr ⟨?_, rfl⟩
        rw [hangupAllLoop_engine]
        have hnil : (st.peers.map Prod.snd).foldl (fun acc r => mapDelete acc r.id)
            ({ st with channel := "", localStreamTarget := none, group := none } : Engine).peers = [] :=
          foldl_mapDelete_snapshot_nil st.peers hw
        rw [hnil]
      · intro hreason _ e he
        exact hangupAllLoop_outs_mem st.channel reason hreason _ _ _ e.2
          (List.mem_map_of_mem Prod.snd he)
  | some g =>
      have hred : doHangup st "" reason
          = .ok (hangupAllLoop st.channel reason
              ((mapDelete st.peers g.record.id).map Prod.snd)
              { st with
                channel := ""
                localStreamTarget := none
                group := none
                peers := mapDelete st.peers g.record.id }
              (sendHangup { st with channel := "", localStreamTarget := none, group := none } st.channel g.record reason).2.2) := by
        rw [doHangup, if_pos rfl, hg0]
        rfl
      have hw2 : ∀ e ∈ mapDelete st.peers g.record.id, e.1 = e.2.id := by
        intro e he
        exact hw e (List.mem_of_mem_filter he)
      refine ⟨(hangupAllLoop st.channel reason
          ((mapDelete st.peers g.record.id).map Prod.snd)
          { st with
            channel := ""
            localStreamTarget := none
            group := none
            peers := mapDelete st.peers g.record.id }
          (sendHangup { st with channel := "", localStreamTarget := none, group := none } st.channel g.record reason).2.2).2, ?_, ?_⟩
      · rw [hred]
        congr 1
        refine Prod.ext_iff.mpr ⟨?_, rfl⟩
        rw [hangupAllLoop_engine]
        have hnil := foldl_mapDelete_snapshot_nil (mapDelete st.peers g.record.id) hw2
        simp only [hnil]
      · intro hreason hg e he
        have hdel : mapDelete st.peers g.record.id = st.peers :=
          mapDelete_of_get_none st.peers g.record.id (hg g (by simp))
        apply hangupAllLoop_outs_mem st.channel reason hreason _ _ _ e.2
        rw [hdel]
        exact List.mem_map_of_mem Prod.snd he


/-! C1 and C4: the channel invariant and the hello-triggered hangup. -/

/-- The channel invariant asserted by the specification. -/
def channelInvariant (st : Engine) : Prop :=
  st.channel = "" ↔ (st.peers = [] ∧ st.group = none ∧ st.localStreamTarget = none)

instance (st : Engine) : Decidable (channelInvariant st) := by
  unfold channelInvariant
  infer_instance

def c1CallMsg : Msg :=
  { subtype := "webrtc_call", initiator := true, source := "carol",
    target := "alice", state := "carol-state", channel := "ch-1", hash := "H",
    v := webrtcVersion }

def c1Mid : Engine :=
  { channel := "ch-1",
    peers := [("carol",
      { id := "carol", user := "carol", state := "aaaabbbbcccc",
        ref := "carol-state", hash := "H" })] }

def c1After : Engine := { channel := "ch-1" }

def c1RejectPayload : WPayload :=
  { subtype := "webrtc_call", channel := "ch-1",
    data := some { accept := false, reason := "reject", state := "carol-state" },
    hash := "H", state := "aaaabbbbcccc", target := "carol" }

/-- C1 (counterexample): the equivalence `channel = "" ↔ peers empty ∧
group unset ∧ channelOptions empty` fails at a reachable state — after an
incoming call is processed and then rejected by `doReject`, the peer table
is empty, the group unset and the channel options empty while the channel
is still "ch-1". -/
theorem c1_counterexample :
    handleWebRTCMessage "aaaabbbbcccc" "ddddeeeeffff" none {} c1CallMsg
      = (c1Mid, [WOut.event "incomingcall" "carol"]) ∧
    doReject c1Mid "carol" "reject"
      = .ok (c1After, [WOut.wsSend c1RejectPayload, WOut.event "destroycall" "carol"]) ∧
    ¬ channelInvariant c1After := by
  refine ⟨by rfl, by rfl, by decide⟩

/-- C1 (amended): the equivalence holds in the initial state and is
re-established by a full hangup (`doHangup` with empty user) from any state
whose peer table keys match their record ids — full hangup always clears the
channel, the group, the channel options and every peer; it is not an
invariant of all reachable states. -/
theorem c1_amended_invariant (st : Engine) (reason : String)
    (hw : ∀ e ∈ st.peers, e.1 = e.2.id) :
    channelInvariant ({} : Engine) ∧
    ∃ outs,
      doHangup st "" reason
        = .ok ({ st with
                 channel := ""
                 localStreamTarget := none
                 group := none
                 peers := [] }, outs) ∧
      channelInvariant { st with
                 channel := ""
                 localStreamTarget := none
                 group := none
                 peers := [] } := by
  refine ⟨by decide, ?_⟩
  obtain ⟨outs, hok, _⟩ := doHangup_all_spec st reason hw
  refine ⟨outs, hok, ?_⟩
  unfold channelInvariant
  simp

/-- C1 (witness): the full hangup re-establishes the equivalence from the
concrete mid-call state of the counterexample. -/
theorem c1_amended_witness :
    (∀ e ∈ c1Mid.peers, e.1 = e.2.id) ∧
    (channelInvariant ({} : Engine) ∧
      ∃ outs,
        doHangup c1Mid "" "hangup"
          = .ok ({ c1Mid with
                   channel := ""
                   localStreamTarget := none
                   group := none
                   peers := [] }, outs) ∧
        channelInvariant { c1Mid with
                   channel := ""
                   localStreamTarget := none
                   group := none
                   peers := [] }) :=
  ⟨by decide, c1_amended_invariant c1Mid "hangup" (by decide)⟩

def c4St : Engine :=
  { user := "alice", channel := "ch-1",
    peers := [("bob",
      { id := "bob", user := "bob", hash := "HB", ref := "bob-ref",
        state := "sb" })] }

def c4HangupPayload : WPayload :=
  { subtype := "webrtc_hangup", channel := "ch-1",
    data := some { accept := false, reason := "hangup", state := "bob-ref" },
    hash := "HB", state := "sb", target := "bob" }

/-- C4 (counterexample): a `hello` with a different user id while user
"alice" has channel "ch-1" with peer "bob" produces a `webrtc_hangup`
envelope (reason "hangup") — the claim's "without sending any webrtc_hangup
envelope" is false. -/
theorem c4_counterexample :
    handleHello "eeeeffff0000" c4St "eve" ""
      = .ok (({ user := "eve" } : Engine),
          [WOut.event "destroycall" "bob", WOut.wsSend c4HangupPayload]) ∧
    c4HangupPayload.subtype = "webrtc_hangup" := by
  refine ⟨by rfl, rfl⟩

/-- C4 (amended): when a `hello` arrives with a prior user set, a channel
active and a different new id, the engine performs a full hangup — channel,
group and channelOptions cleared, every peer record removed — and for every
peer a `webrtc_hangup` envelope with the default reason "hangup" is sent to
the server (the hangup is not local-only). -/
theorem c4_amended_user_change_hangup (st : Engine)
    (freshG selfId userParam : String)
    (hu : st.user ≠ "") (hc : st.channel ≠ "") (hid : selfId ≠ "")
    (hne : selfId ≠ st.user)
    (hw : ∀ e ∈ st.peers, e.1 = e.2.id)
    (hg : ∀ g ∈ st.group, mapGet st.peers g.record.id = none) :
    ∃ outs,
      handleHello freshG st selfId userParam
        = .ok ({ st with
                 user := selfId
                 channel := ""
                 localStreamTarget := none
                 group := none
                 peers := [] }, outs) ∧
      ∀ e ∈ st.peers,
        WOut.wsSend (mkWebrtcPayload "webrtc_hangup" st.channel
          { e.2 with pc := none }
          (some { accept := false, reason := "hangup", state := e.2.ref }) "")
          ∈ outs := by
  obtain ⟨outs, hok, hmem⟩ := doHangup_all_spec st "hangup" hw
  refine ⟨outs, ?_, hmem (by decide) hg⟩
  have hu2 : ¬ (selfId = "" ∧ userParam = "") := fun h => hid h.1
  rw [handleHello, if_neg hu2, if_pos hid]
  dsimp only
  rw [if_pos (show st.user ≠ "" ∧ st.channel ≠ "" ∧ selfId ≠ st.user from ⟨hu, hc, hne⟩)]
  rw [hok]

/-- C4 (witness): the concrete user change from "alice" to "eve" clears
the engine and sends the hangup envelope for peer "bob". -/
theorem c4_amended_witness :
    (c4St.user ≠ "" ∧ c4St.channel ≠ "" ∧ ("eve" : String) ≠ c4St.user) ∧
    (∃ outs,
      handleHello "eeeeffff0000" c4St "eve" ""
        = .ok ({ c4St with
                 user := "eve"
                 channel := ""
                 localStreamTarget := none
                 group := none
                 peers := [] }, outs) ∧
      ∀ e ∈ c4St.peers,
        WOut.wsSend (mkWebrtcPayload "webrtc_hangup" c4St.channel
          { e.2 with pc := none }
          (some { accept := false, reason := "hangup", state := e.2.ref }) "")
          ∈ outs) :=
  ⟨⟨by decide, by decide, by decide⟩,
    c4_amended_user_change_hangup c4St "eeeeffff0000" "eve" "" (by decide)
      (by decide) (by decide) (by decide) (by decide) (by simp [c4St])⟩


/-! C5, C3 and C2: group reset, busy reject and the hash gate. -/

def c5Record : PeerRecord :=
  { user := "g", group := "g", hash := "GH", state := "gstate" }

def c5Group : GroupController :=
  { id := "g", record := c5Record, members := ["alice"] }

def c5Bob : PeerRecord :=
  { id := "bob", user := "bob", group := "g", hash := "GH", ref := "g",
    state := "g" }

def c5St : Engine :=
  { user := "alice", channel := "ch-1", group := some c5Group,
    peers := [("bob", c5Bob)] }

def c5GroupData : GroupData :=
  { group := "g", members := ["bob", "alice"], reset := true }

def c5Msg : Msg :=
  { subtype := "webrtc_channel", channel := "ch-1", v := webrtcVersion,
    data := some { groupData := some c5GroupData } }

/-- C5: when the Group Coordinator receives a `webrtc_channel` for its own
group with `reset = true`, the code awaits `doMesh([], record)`; with an
empty user list `doMesh` always throws "mesh without self", so the awaited
promise rejects and neither the teardown nor the subsequent reconciliation
to the sorted member list ever runs — only the channel adoption survives.
This evaluates the code at the failing input. -/
theorem c5_group_reset_failure :
    groupHandleWebRTCMessage c5St c5Group c5Msg
      = ({ c5St with group := some { c5Group with channel := some "ch-1" } },
          [], some "mesh without self") ∧
    doMesh c5St [] c5Record = .error "mesh without self" := by
  refine ⟨by rfl, by rfl⟩

/-- C3: an inbound `webrtc_call` with `initiator = true` and non-empty
source, arriving with no prior peer record for the source while a channel is
active, produces exactly one reply — a `webrtc_call` carrying
`{accept: false, reason: "reject_busy", state: record.ref}` where
`record.ref` is the caller's state from the message — adds no peer and
leaves the whole engine state (channel included) unchanged. -/
theorem c3_busy_reject (st : Engine) (fresh fresh2 : String)
    (cfg : Option (String → String))
    (src tgt mstate mchannel mgroup mhash mtrans : String)
    (profile : Option String) (mdata : Option MsgData) (v : Nat)
    (hv : webrtcVersion ≤ v)
    (hsrc : src ≠ "")
    (hnopeer : mapGet st.peers src = none)
    (hbusy : st.channel ≠ "") :
    handleWebRTCMessage fresh fresh2 cfg st
      { subtype := "webrtc_call", initiator := true, source := src,
        target := tgt, state := mstate, channel := mchannel, group := mgroup,
        hash := mhash, data := mdata, v := v, transaction := mtrans,
        profile := profile }
      = (st, [WOut.wsSend
          { subtype := "webrtc_call", channel := mchannel,
            data := some { accept := false, reason := "reject_busy", state := mstate },
            hash := mhash, state := fresh, target := src,
            transaction := mtrans }]) := by
  rw [handleWebRTCMessage, if_neg (show ¬ (v = 0 ∨ v < webrtcVersion) by
    simp only [webrtcVersion] at hv ⊢
    omega)]
  show handleWebrtcCallInitiator fresh fresh2 st _ = _
  rw [handleWebrtcCallInitiator]
  dsimp only
  rw [if_neg hsrc, hnopeer]
  dsimp only
  rw [if_pos hbusy]
  rfl

def c3St : Engine := { channel := "ch-1" }

def c3Msg : Msg :=
  { subtype := "webrtc_call", initiator := true, source := "carol",
    target := "alice", state := "carol-st", channel := "ch-2", group := "",
    hash := "HH", data := none, v := webrtcVersion, transaction := "tx",
    profile := none }

def c3Payload : WPayload :=
  { subtype := "webrtc_call", channel := "ch-2",
    data := some { accept := false, reason := "reject_busy", state := "carol-st" },
    hash := "HH", state := "ffff0000aaaa", target := "carol",
    transaction := "tx" }

/-- C3 (witness): concrete busy reject while channel "ch-1" is active. -/
theorem c3_witness :
    (("carol" : String) ≠ "" ∧ mapGet c3St.peers "carol" = none ∧
      c3St.channel ≠ "") ∧
    handleWebRTCMessage "ffff0000aaaa" "gggg0000bbbb" none c3St c3Msg
      = (c3St, [WOut.wsSend c3Payload]) :=
  ⟨⟨by decide, by rfl, by decide⟩,
    c3_busy_reject c3St "ffff0000aaaa" "gggg0000bbbb" none "carol" "alice"
      "carol-st" "ch-2" "" "HH" "tx" none none webrtcVersion (le_refl _)
      (by decide) (by rfl) (by decide)⟩

/-- An inbound non-initiator `webrtc_call` reply envelope (statement
plumbing for the hash-gate theorem). -/
def mkCallReplyMsg (src tgt mstate mchannel mgroup mhash mtrans : String)
    (profile : Option String) (d : MsgData) (v : Nat) : Msg :=
  { subtype := "webrtc_call", initiator := false, source := src, target := tgt,
    state := mstate, channel := mchannel, group := mgroup, hash := mhash,
    data := some d, v := v, transaction := mtrans, profile := profile }

/-- C2: for an inbound non-initiator `webrtc_call` whose source matches a
peer record and whose `data.state` equals the record's state, a hash
mismatch drops the message leaving the engine unchanged, unless the message
is an accepted call whose record group, message group and active group
controller id coincide (as non-empty group ids), in which case the record
adopts `message.hash` and processing continues: `ref` is updated from the
message state, a peer connection is created and `outgoingcall` fires. -/
theorem c2_hash_mismatch_gate (st : Engine) (fresh fresh2 : String)
    (cfg : Option (String → String))
    (src tgt mstate mchannel mgroup mhash mtrans : String)
    (profile : Option String) (d : MsgData) (v : Nat) (record : PeerRecord)
    (hv : webrtcVersion ≤ v)
    (hr : mapGet st.peers src = some record)
    (hstate : record.state = d.state)
    (hhash : record.hash ≠ mhash) :
    (hashExchangeCond st record mgroup d = false →
      handleWebRTCMessage fresh fresh2 cfg st
        (mkCallReplyMsg src tgt mstate mchannel mgroup mhash mtrans profile d v)
        = (st, [])) ∧
    (hashExchangeCond st record mgroup d = true →
      (mapGet (handleWebRTCMessage fresh fresh2 cfg st
          (mkCallReplyMsg src tgt mstate mchannel mgroup mhash mtrans profile d v)).1.peers
        src).map PeerRecord.hash = some mhash ∧
      (mapGet (handleWebRTCMessage fresh fresh2 cfg st
          (mkCallReplyMsg src tgt mstate mchannel mgroup mhash mtrans profile d v)).1.peers
        src).map PeerRecord.ref = some mstate ∧
      WOut.event "outgoingcall" record.id ∈
        (handleWebRTCMessage fresh fresh2 cfg st
          (mkCallReplyMsg src tgt mstate mchannel mgroup mhash mtrans profile d v)).2) := by
  have hdisp : handleWebRTCMessage fresh fresh2 cfg st
      (mkCallReplyMsg src tgt mstate mchannel mgroup mhash mtrans profile d v)
      = handleWebrtcCallReply st
        (mkCallReplyMsg src tgt mstate mchannel mgroup mhash mtrans profile d v) := by
    rw [handleWebRTCMessage]
    dsimp only [mkCallReplyMsg]
    rw [if_neg (show ¬ (v = 0 ∨ v < webrtcVersion) by
      simp only [webrtcVersion] at hv ⊢
      omega)]
    rfl
  constructor
  · intro hcond
    rw [hdisp, handleWebrtcCallReply]
    dsimp only [mkCallReplyMsg]
    rw [hr]
    dsimp only
    rw [if_neg (show ¬ record.state ≠ d.state from fun hne => hne hstate)]
    rw [if_pos hhash,
      if_neg (show ¬ (hashExchangeCond st record mgroup d = true) from by
        simp [hcond])]
  · intro hcond
    have haccept : d.accept = true := by
      cases hg : st.group with
      | none => simp [hashExchangeCond, hg] at hcond
      | some g =>
          simp [hashExchangeCond, hg, Bool.and_eq_true] at hcond
          tauto
    rw [hdisp, handleWebrtcCallReply]
    dsimp only [mkCallReplyMsg]
    rw [hr]
    dsimp only
    rw [if_neg (show ¬ record.state ≠ d.state from fun hne => hne hstate)]
    rw [if_pos hhash, if_pos hcond]
    dsimp only
    rw [if_neg (show ¬ ¬ (d.accept = true) from fun h => h haccept)]
    refine ⟨?_, ?_, ?_⟩
    · rw [mapGet_mapSet_self]
      rfl
    · rw [mapGet_mapSet_self]
      rfl
    · simp [getPeerConnection]

def c2Record : PeerRecord :=
  { id := "bob", user := "bob", group := "g", hash := "OLD", ref := "old-ref",
    state := "s1" }

def c2St : Engine :=
  { user := "alice", channel := "ch-1",
    group := some { id := "g", record := {} },
    peers := [("bob", c2Record)] }

def c2D : MsgData := { accept := true, state := "s1" }

/-- C2 (witness): a concrete group hash exchange — mismatching hash "NEW"
is adopted on an accepted group call reply. -/
theorem c2_witness :
    (mapGet c2St.peers "bob" = some c2Record ∧ c2Record.state = c2D.state ∧
      c2Record.hash ≠ "NEW" ∧ hashExchangeCond c2St c2Record "g" c2D = true) ∧
    ((mapGet (handleWebRTCMessage "f1" "f2" none c2St
        (mkCallReplyMsg "bob" "" "new-state" "ch-1" "g" "NEW" "" none c2D
          webrtcVersion)).1.peers "bob").map PeerRecord.hash = some "NEW" ∧
     (mapGet (handleWebRTCMessage "f1" "f2" none c2St
        (mkCallReplyMsg "bob" "" "new-state" "ch-1" "g" "NEW" "" none c2D
          webrtcVersion)).1.peers "bob").map PeerRecord.ref = some "new-state" ∧
     WOut.event "outgoingcall" c2Record.id ∈
       (handleWebRTCMessage "f1" "f2" none c2St
        (mkCallReplyMsg "bob" "" "new-state" "ch-1" "g" "NEW" "" none c2D
          webrtcVersion)).2) :=
  ⟨⟨by rfl, by rfl, by decide, by rfl⟩,
    (c2_hash_mismatch_gate c2St "f1" "f2" none "bob" "" "new-state" "ch-1" "g"
      "NEW" "" none c2D webrtcVersion c2Record (le_refl _) (by rfl) rfl
      (by decide)).2 (by rfl)⟩

end Kwmjs
